import Mathlib

/-!
Verification of the Old-School-Game front-end specification.

The repository's stateful core is the PWA install-prompt lifecycle
(the `InstallPromptController` of the spec, implemented by the
`PWAInstall` component) plus the `fetchGitHub` utility.  The
`fetchGitHub` function is embedded directly from its source.  The
`PWAInstall` component's source file is not present in the repository
snapshot (only its test suite is), so the controller is modelled from
the specification's state machine and public contract.
-/

/-- Modelled from the spec: the four states of the InstallPromptController
(the `PWAInstall` component, whose source file is missing; only its test
suite is present).  `Installable`/`Resolving` carry the captured prompt
handle, represented by an opaque `Nat` identity. -/
inductive CtrlState where
  | Inert
  | Idle
  | Installable (handle : Nat)
  | Resolving (handle : Nat)
deriving DecidableEq, Repr

/-- Modelled from the spec: a user-choice outcome reported by the platform. -/
inductive Outcome where
  | accepted
  | dismissed
deriving DecidableEq, Repr

/-- Modelled from the spec: the result of asking the platform to show the
native install dialog: either the choice resolves, or the prompt invocation
rejects, or the choice-outcome promise rejects. -/
inductive PlatformResult where
  | resolved (o : Outcome)
  | promptRejected
  | choiceRejected
deriving DecidableEq, Repr

/-- Log/telemetry lines the controller can emit. -/
inductive LogLine where
  | acceptedLog
  | dismissedLog
  | installErrorLog
  | swRegisteredLog
  | swFailedLog
deriving DecidableEq, Repr

/-- Modelled from the spec: the external stimuli of the controller: the two
platform signals, the user's click on the affordance, and the platform's
resolution of a pending prompt. -/
inductive Event where
  | installAvailable (h : Nat)
  | appInstalled
  | click
  | resolve (r : PlatformResult)
deriving DecidableEq, Repr

/-- Observable trace of a run: final state, emitted log lines, and the
handles on which the platform prompt was invoked (in order). -/
structure Trace where
  state : CtrlState
  logs : List LogLine
  prompts : List Nat
deriving DecidableEq, Repr

/-- Modelled from the spec: the transition function of the
InstallPromptController (`PWAInstall` source missing from the snapshot).
`Inert` is terminal; `install-available` captures/replaces the handle
(last-write-wins); `app-installed` discards the handle from any state;
`click` invokes the prompt when a handle is present and is a no-op
otherwise; resolution discards the handle, returns to `Idle`, and logs
the outcome (errors are logged, never re-thrown). -/
def step (s : CtrlState) (e : Event) : Trace :=
  match s with
  | .Inert => ⟨.Inert, [], []⟩
  | .Idle =>
    match e with
    | .installAvailable h => ⟨.Installable h, [], []⟩
    | .appInstalled => ⟨.Idle, [], []⟩
    | .click => ⟨.Idle, [], []⟩
    | .resolve _ => ⟨.Idle, [], []⟩
  | .Installable k =>
    match e with
    | .installAvailable h => ⟨.Installable h, [], []⟩
    | .appInstalled => ⟨.Idle, [], []⟩
    | .click => ⟨.Resolving k, [], [k]⟩
    | .resolve _ => ⟨.Installable k, [], []⟩
  | .Resolving k =>
    match e with
    | .installAvailable _ => ⟨.Resolving k, [], []⟩
    | .appInstalled => ⟨.Idle, [], []⟩
    | .click => ⟨.Resolving k, [], []⟩
    | .resolve (.resolved .accepted) => ⟨.Idle, [.acceptedLog], []⟩
    | .resolve (.resolved .dismissed) => ⟨.Idle, [.dismissedLog], []⟩
    | .resolve .promptRejected => ⟨.Idle, [.installErrorLog], []⟩
    | .resolve .choiceRejected => ⟨.Idle, [.installErrorLog], []⟩

/-- One step on an accumulated trace: advance the state and append the
newly emitted logs and prompt invocations. -/
def stepT (t : Trace) (e : Event) : Trace :=
  let r := step t.state e
  ⟨r.state, t.logs ++ r.logs, t.prompts ++ r.prompts⟩

/-- Run the controller from a state over a list of events, collecting
the observable trace. -/
def run (s : CtrlState) (es : List Event) : Trace :=
  es.foldl stepT ⟨s, [], []⟩

/-- The state component of a run (ignoring logs and prompt calls). -/
def stateRun (s : CtrlState) (es : List Event) : CtrlState :=
  es.foldl (fun st e => (step st e).state) s

/-- Modelled from the spec: the install affordance is rendered only in
the `Installable` state. -/
def showButton : CtrlState → Bool
  | .Installable _ => true
  | _ => false

/-- Modelled from the spec: the retained prompt handle, present in
`Installable` (captured, unconsumed) and `Resolving` (being consumed),
absent otherwise. -/
def promptHandle : CtrlState → Option Nat
  | .Installable h => some h
  | .Resolving h => some h
  | _ => none

/-- Modelled from the spec: the raw asynchronous install flow on a
captured handle: a failing prompt invocation or a rejecting
choice-outcome promise surfaces as an error of this inner computation;
a resolved choice yields the outcome's log line. -/
def installFlowRaw (r : PlatformResult) : Except String (List LogLine) :=
  match r with
  | .resolved .accepted => .ok [.acceptedLog]
  | .resolved .dismissed => .ok [.dismissedLog]
  | .promptRejected => .error "Prompt failed"
  | .choiceRejected => .error "UserChoice failed"

/-- Modelled from the spec: the click handler of the missing `PWAInstall`
component.  With no handle it is a defensive no-op; with a handle it
invokes the prompt, awaits the choice, and catches every error at the
boundary (logging it) so that the outer `Except` never carries an error
— an `.error` result here would model an exception escaping to the host
page. -/
def handleInstallClick (s : CtrlState) (r : PlatformResult) : Except String Trace :=
  match promptHandle s with
  | none => .ok ⟨s, [], []⟩
  | some h =>
    match installFlowRaw r with
    | .ok ls => .ok ⟨.Idle, ls, [h]⟩
    | .error _ => .ok ⟨.Idle, [.installErrorLog], [h]⟩

/-- Modelled from the spec: how the service-worker registration request
settles: the returned promise resolves, the promise rejects, or the call
itself throws synchronously. -/
inductive SWOutcome where
  | success
  | failure
  | syncThrow
deriving DecidableEq, Repr

/-- Modelled from the spec: the host environment sampled at mount time. -/
structure Env where
  matchMediaSupported : Bool
  standalone : Bool
  serviceWorkerSupported : Bool
  swOutcome : SWOutcome
deriving DecidableEq, Repr

/-- The two platform signal types the controller subscribes to. -/
inductive SignalType where
  | installAvailable
  | appInstalled
deriving DecidableEq, Repr

/-- The sole fatal environment error: the display-mode query capability
is entirely absent. -/
inductive EnvError where
  | matchMediaMissing
deriving DecidableEq, Repr

/-- Result of a successful mount: initial state, which signals were
subscribed, whether worker registration was attempted, and setup logs. -/
structure MountResult where
  initialState : CtrlState
  subscriptions : List SignalType
  swRegisterAttempted : Bool
  logs : List LogLine
deriving DecidableEq, Repr

/-- Modelled from the spec: the fire-and-forget service-worker
registration: every settlement — resolution, rejection, or a synchronous
throw — is caught at the boundary and logged; nothing propagates. -/
def registerServiceWorker : SWOutcome → List LogLine
  | .success => [.swRegisteredLog]
  | .failure => [.swFailedLog]
  | .syncThrow => [.swFailedLog]

/-- Modelled from the spec: controller setup at mount (the `PWAInstall`
source is missing from the snapshot).  A missing display-mode query is
the sole fatal error; a standalone host yields the terminal `Inert`
state with no subscriptions and no worker registration; otherwise the
controller starts `Idle`, subscribes to both signals, and, when the host
supports workers, fires the registration request. -/
def mount (env : Env) : Except EnvError MountResult :=
  if env.matchMediaSupported then
    if env.standalone then
      .ok ⟨.Inert, [], false, []⟩
    else
      .ok ⟨.Idle, [.installAvailable, .appInstalled], env.serviceWorkerSupported,
           if env.serviceWorkerSupported then registerServiceWorker env.swOutcome else []⟩
  else
    .error .matchMediaMissing

/-- Modelled from the spec: the pair of handler references (opaque
identities) a single mount creates for the two platform signals. -/
structure Handlers where
  onBeforeInstallPrompt : Nat
  onAppInstalled : Nat
deriving DecidableEq, Repr

/-- A subscribe or unsubscribe call observed on the host's signal source. -/
inductive ListenerCall where
  | add (sig : SignalType) (handler : Nat)
  | remove (sig : SignalType) (handler : Nat)
deriving DecidableEq, Repr

/-- Modelled from the spec: the subscribe calls a mount performs. -/
def mountListenerCalls (h : Handlers) : List ListenerCall :=
  [.add .installAvailable h.onBeforeInstallPrompt, .add .appInstalled h.onAppInstalled]

/-- Modelled from the spec: the unsubscribe calls the matching unmount
performs — the exact same handler references, per signal. -/
def unmountListenerCalls (h : Handlers) : List ListenerCall :=
  [.remove .installAvailable h.onBeforeInstallPrompt, .remove .appInstalled h.onAppInstalled]

/-- One mount/unmount cycle of the controller. -/
def mountUnmountCycle (h : Handlers) : List ListenerCall :=
  mountListenerCalls h ++ unmountListenerCalls h

/-- The listener-call trace of a sequence of mount/unmount cycles, one
`Handlers` pair per cycle. -/
def listenerTrace (hs : List Handlers) : List ListenerCall :=
  hs.flatMap mountUnmountCycle

/-- The handler reference a mount registers for a given signal. -/
def sigHandler (sig : SignalType) (h : Handlers) : Nat :=
  match sig with
  | .installAvailable => h.onBeforeInstallPrompt
  | .appInstalled => h.onAppInstalled

/-- Select the handler of an `add` call for the given signal. -/
def isAddFor (sig : SignalType) : ListenerCall → Option Nat
  | .add s h => if s = sig then some h else none
  | .remove _ _ => none

/-- Select the handler of a `remove` call for the given signal. -/
def isRemoveFor (sig : SignalType) : ListenerCall → Option Nat
  | .remove s h => if s = sig then some h else none
  | .add _ _ => none

/-- The handlers subscribed for a signal, in order of subscription. -/
def addsFor (sig : SignalType) (tr : List ListenerCall) : List Nat :=
  tr.filterMap (isAddFor sig)

/-- The handlers unsubscribed for a signal, in order of unsubscription. -/
def removesFor (sig : SignalType) (tr : List ListenerCall) : List Nat :=
  tr.filterMap (isRemoveFor sig)

/-- A controller state reachable from `Idle` by delivering events. -/
def Reachable (s : CtrlState) : Prop :=
  ∃ es : List Event, stateRun .Idle es = s

/-! ## The fetchGitHub utility, embedded from the source -/

/-- A JSON value as far as `fetchGitHub` observes it: the function is
generic in the expected result type, and its fallback is the empty
array regardless of that type. -/
inductive JsonValue where
  | arr (elems : List JsonValue)
  | str (s : String)
  | num (n : Int)

/-- The world `fetchGitHub` runs against: whether the `fetch` call
itself fails (and with what message), the response's `ok` flag, status
and status text, the result of parsing the body as JSON, and whether
`NODE_ENV` is `development`. -/
structure FetchWorld where
  devMode : Bool
  netFails : Bool
  netError : String
  ok : Bool
  status : Nat
  statusText : String
  jsonResult : Except String JsonValue

/-- What `fetchGitHub` settles with: the resolved value and the
`console.error` lines emitted along the way. -/
structure FetchResult where
  value : JsonValue
  logs : List String

/-- Embedded from `src/unnamed/part_000` (`fetchGitHub`): build the URL,
try the fetch; a non-ok response logs a dev-mode error line and throws;
the catch block logs the failure and resolves with the empty array cast
to the requested type.  An `.error` of the outer `Except` would model
the returned promise rejecting. -/
def fetchGitHub (endpoint : String) (w : FetchWorld) : Except String FetchResult :=
  let url := "https://api.github.com" ++ endpoint
  let tryBlock : List String × Except String JsonValue :=
    if w.netFails then
      ([], .error w.netError)
    else if w.ok = false then
      (if w.devMode then
        ["GitHub API Error [" ++ toString w.status ++ "]: " ++ w.statusText ++ " → " ++ url]
       else [],
       .error ("GitHub API request failed for " ++ endpoint))
    else
      ([], w.jsonResult)
  match tryBlock with
  | (ls, .ok v) => .ok ⟨v, ls⟩
  | (ls, .error e) => .ok ⟨.arr [], ls ++ ["GitHub Fetch Failed: " ++ e]⟩

/-! ## Helper lemmas -/

/-- The state of a run depends only on the state component of the fold. -/
theorem foldl_stepT_state (es : List Event) :
    ∀ t : Trace, (es.foldl stepT t).state = stateRun t.state es := by
  induction es with
  | nil => intro t; rfl
  | cons e es ih =>
      intro t
      simp only [List.foldl_cons, stateRun]
      have := ih (stepT t e)
      simpa [stateRun, stepT] using this

theorem run_state_eq (s : CtrlState) (es : List Event) :
    (run s es).state = stateRun s es := by
  simpa using foldl_stepT_state es ⟨s, [], []⟩

theorem step_inert (e : Event) : step .Inert e = ⟨.Inert, [], []⟩ := rfl

/-- From `Inert` every run stays `Inert`. -/
theorem stateRun_inert (es : List Event) : stateRun .Inert es = .Inert := by
  induction es with
  | nil => rfl
  | cons e es ih => simpa [stateRun, step] using ih

theorem step_not_inert (s : CtrlState) (e : Event) (h : s ≠ .Inert) :
    (step s e).state ≠ .Inert := by
  cases s with
  | Inert => exact absurd rfl h
  | Idle => cases e with
    | installAvailable k => simp [step]
    | appInstalled => simp [step]
    | click => simp [step]
    | resolve r => simp [step]
  | Installable k => cases e with
    | installAvailable k => simp [step]
    | appInstalled => simp [step]
    | click => simp [step]
    | resolve r => simp [step]
  | Resolving k => cases e with
    | installAvailable k => simp [step]
    | appInstalled => simp [step]
    | click => simp [step]
    | resolve r =>
        cases r with
        | resolved o => cases o <;> simp [step]
        | promptRejected => simp [step]
        | choiceRejected => simp [step]

/-- A run started in a non-`Inert` state never reaches `Inert`. -/
theorem stateRun_not_inert (es : List Event) :
    ∀ s : CtrlState, s ≠ .Inert → stateRun s es ≠ .Inert := by
  induction es with
  | nil => intro s h; exact h
  | cons e es ih =>
      intro s h
      simpa [stateRun] using ih _ (step_not_inert s e h)

/-- Every state reachable from `Idle` is distinct from `Inert`. -/
theorem reachable_not_inert (s : CtrlState) (h : Reachable s) : s ≠ .Inert := by
  obtain ⟨es, hes⟩ := h
  exact hes ▸ stateRun_not_inert es .Idle (by simp)

/-- Folding a block of `install-available` deliveries from `Idle` or any
`Installable` state ends in `Installable` with the last handle. -/
theorem stateRun_installAvailable (hs : List Nat) (h : Nat) :
    ∀ s : CtrlState, (s = .Idle ∨ ∃ k, s = .Installable k) →
      stateRun s ((hs ++ [h]).map Event.installAvailable) = .Installable h := by
  induction hs with
  | nil =>
      intro s hsOK
      rcases hsOK with rfl | ⟨k, rfl⟩ <;> rfl
  | cons a hs ih =>
      intro s hsOK
      have hstep : (step s (.installAvailable a)).state = .Installable a := by
        rcases hsOK with rfl | ⟨k, rfl⟩ <;> rfl
      have := ih (step s (.installAvailable a)).state (Or.inr ⟨a, hstep⟩)
      simpa [stateRun] using this

theorem addsFor_trace (hs : List Handlers) (sig : SignalType) :
    addsFor sig (listenerTrace hs) = hs.map (sigHandler sig) := by
  induction hs with
  | nil => rfl
  | cons h hs ih =>
      cases sig <;>
        simp_all [listenerTrace, mountUnmountCycle, mountListenerCalls,
          unmountListenerCalls, addsFor, isAddFor, sigHandler]

theorem removesFor_trace (hs : List Handlers) (sig : SignalType) :
    removesFor sig (listenerTrace hs) = hs.map (sigHandler sig) := by
  induction hs with
  | nil => rfl
  | cons h hs ih =>
      cases sig <;>
        simp_all [listenerTrace, mountUnmountCycle, mountListenerCalls,
          unmountListenerCalls, removesFor, isRemoveFor, sigHandler]

/-! ## Claim theorems -/

/-- Claim C1: a full install flow (install-available delivering a handle,
then a click, then the platform resolving the choice) invokes the prompt
exactly once on the captured handle, logs accepted and dismissed outcomes
distinctly, and in both cases ends in `Idle` with the handle cleared and
the affordance absent. -/
theorem install_flow_accept_dismiss (h : Nat) :
    run .Idle [.installAvailable h, .click, .resolve (.resolved .accepted)] =
        ⟨.Idle, [.acceptedLog], [h]⟩ ∧
    run .Idle [.installAvailable h, .click, .resolve (.resolved .dismissed)] =
        ⟨.Idle, [.dismissedLog], [h]⟩ ∧
    LogLine.acceptedLog ≠ LogLine.dismissedLog ∧
    promptHandle .Idle = none ∧ showButton .Idle = false :=
  ⟨rfl, rfl, by decide, rfl, rfl⟩

/-- Claim C2: any nonempty block of install-available signals (no
interleaved app-installed) leaves the controller `Installable`, retaining
only the most recently delivered handle (last-write-wins). -/
theorem installAvailable_last_write_wins (hs : List Nat) (h : Nat) :
    (run .Idle ((hs ++ [h]).map Event.installAvailable)).state = .Installable h ∧
    promptHandle (run .Idle ((hs ++ [h]).map Event.installAvailable)).state = some h := by
  have h1 : (run .Idle ((hs ++ [h]).map Event.installAvailable)).state = .Installable h := by
    rw [run_state_eq]
    exact stateRun_installAvailable hs h .Idle (Or.inl rfl)
  exact ⟨h1, by rw [h1]; rfl⟩

/-- Claim C3: from every reachable state, the app-installed signal
transitions the controller to `Idle` with no retained handle, and the
affordance is absent immediately afterwards. -/
theorem appInstalled_resets_from_reachable (s : CtrlState) (h : Reachable s) :
    (step s .appInstalled).state = .Idle ∧
    promptHandle (step s .appInstalled).state = none ∧
    showButton (step s .appInstalled).state = false := by
  have hni := reachable_not_inert s h
  cases s with
  | Inert => exact absurd rfl hni
  | Idle => exact ⟨rfl, rfl, rfl⟩
  | Installable k => exact ⟨rfl, rfl, rfl⟩
  | Resolving k => exact ⟨rfl, rfl, rfl⟩

/-- Witness for C3 at the reachable state `Installable 0`. -/
theorem appInstalled_resets_witness :
    (step (.Installable 0) .appInstalled).state = .Idle ∧
    promptHandle (step (.Installable 0) .appInstalled).state = none ∧
    showButton (step (.Installable 0) .appInstalled).state = false :=
  appInstalled_resets_from_reachable (.Installable 0) ⟨[.installAvailable 0], rfl⟩

/-- Claim C4: when a handle is captured and either the prompt invocation
or the choice-outcome promise rejects, the click handler swallows the
error (returns `.ok`, logging only) and the controller settles to
`Idle`. -/
theorem click_failure_swallowed (s : CtrlState) (k : Nat)
    (hh : promptHandle s = some k) (r : PlatformResult)
    (hr : r = .promptRejected ∨ r = .choiceRejected) :
    handleInstallClick s r = .ok ⟨.Idle, [.installErrorLog], [k]⟩ := by
  rcases hr with rfl | rfl <;> simp [handleInstallClick, hh, installFlowRaw]

/-- Witness for C4 at `Installable 7` with a rejecting prompt. -/
theorem click_failure_swallowed_witness :
    handleInstallClick (.Installable 7) .promptRejected =
      .ok ⟨.Idle, [.installErrorLog], [7]⟩ :=
  click_failure_swallowed (.Installable 7) 7 rfl .promptRejected (Or.inl rfl)

/-- Claim C5: when standalone mode is detected true at start, the
controller enters `Inert` with no subscriptions and no worker
registration, and no later event delivery ever leaves `Inert` or renders
the affordance. -/
theorem standalone_inert_forever (env : Env)
    (hm : env.matchMediaSupported = true) (hs : env.standalone = true) :
    mount env = .ok ⟨.Inert, [], false, []⟩ ∧
    ∀ es : List Event, (run .Inert es).state = .Inert ∧
      showButton (run .Inert es).state = false := by
  refine ⟨by simp [mount, hm, hs], ?_⟩
  intro es
  have h1 : (run .Inert es).state = .Inert := by
    rw [run_state_eq]; exact stateRun_inert es
  exact ⟨h1, by rw [h1]; rfl⟩

/-- Witness for C5 at a standalone environment and a synthetic later
signal sequence. -/
theorem standalone_inert_forever_witness :
    mount ⟨true, true, true, .success⟩ = .ok ⟨.Inert, [], false, []⟩ ∧
    (run .Inert [.installAvailable 3, .click]).state = .Inert := by
  have h := standalone_inert_forever ⟨true, true, true, .success⟩ rfl rfl
  exact ⟨h.1, (h.2 [.installAvailable 3, .click]).1⟩

/-- Claim C6: a host with the display-mode query capability entirely
absent makes setup fail fast with the (sole) fatal environment error;
whenever the capability is present, mount succeeds. -/
theorem matchMedia_missing_fatal (env : Env) :
    (env.matchMediaSupported = false → mount env = .error .matchMediaMissing) ∧
    (env.matchMediaSupported = true → ∃ r, mount env = .ok r) := by
  constructor
  · intro h; simp [mount, h]
  · intro h
    cases hstand : env.standalone with
    | true => exact ⟨⟨.Inert, [], false, []⟩, by simp [mount, h, hstand]⟩
    | false =>
        exact ⟨⟨.Idle, [.installAvailable, .appInstalled], env.serviceWorkerSupported,
          if env.serviceWorkerSupported then registerServiceWorker env.swOutcome else []⟩,
          by simp [mount, h, hstand]⟩

/-- Witness for C6: a capability-missing environment errors, a
capability-present one mounts. -/
theorem matchMedia_missing_fatal_witness :
    mount ⟨false, false, false, .success⟩ = .error .matchMediaMissing ∧
    ∃ r, mount ⟨true, false, false, .success⟩ = .ok r :=
  ⟨(matchMedia_missing_fatal ⟨false, false, false, .success⟩).1 rfl,
   (matchMedia_missing_fatal ⟨true, false, false, .success⟩).2 rfl⟩

/-- Claim C7: over any sequence of mount/unmount cycles, for each signal
the handler references passed to unsubscribe are exactly (and in the same
order as) those passed to subscribe, and N cycles produce N matched
pairs per signal. -/
theorem listener_pairs_matched (hs : List Handlers) (sig : SignalType) :
    addsFor sig (listenerTrace hs) = removesFor sig (listenerTrace hs) ∧
    (addsFor sig (listenerTrace hs)).length = hs.length ∧
    (removesFor sig (listenerTrace hs)).length = hs.length := by
  rw [addsFor_trace, removesFor_trace]
  exact ⟨rfl, by simp, by simp⟩

/-- Claim C8: service-worker registration is fire-and-forget: every
outcome is logged, the initial state, subscriptions and affordance are
the same for every outcome, and a synchronous throw during registration
still yields a successful mount (nothing propagates out of setup). -/
theorem sw_registration_fire_and_forget (env : Env)
    (hm : env.matchMediaSupported = true) (hs : env.standalone = false)
    (hw : env.serviceWorkerSupported = true) :
    mount env = .ok ⟨.Idle, [.installAvailable, .appInstalled], true,
        registerServiceWorker env.swOutcome⟩ ∧
    (env.swOutcome = .success → registerServiceWorker env.swOutcome = [.swRegisteredLog]) ∧
    (env.swOutcome = .failure → registerServiceWorker env.swOutcome = [.swFailedLog]) ∧
    (∀ o : SWOutcome,
      mount ⟨env.matchMediaSupported, env.standalone, env.serviceWorkerSupported, o⟩ =
        .ok ⟨.Idle, [.installAvailable, .appInstalled], true, registerServiceWorker o⟩) ∧
    showButton .Idle = false := by
  refine ⟨by simp [mount, hm, hs, hw], ?_, ?_, ?_, rfl⟩
  · intro h; rw [h]; rfl
  · intro h; rw [h]; rfl
  · intro o; simp [mount, hm, hs, hw]

/-- Witness for C8 at an environment whose registration call throws
synchronously: mount still succeeds, state `Idle`, failure logged. -/
theorem sw_registration_fire_and_forget_witness :
    mount ⟨true, false, true, .syncThrow⟩ =
      .ok ⟨.Idle, [.installAvailable, .appInstalled], true, [.swFailedLog]⟩ :=
  (sw_registration_fire_and_forget ⟨true, false, true, .syncThrow⟩ rfl rfl rfl).1

/-- Claim C9: invoking the install action with no prompt handle present
never throws (the handler returns `.ok`) and never changes the
controller's state. -/
theorem click_without_handle_noop (s : CtrlState) (hh : promptHandle s = none)
    (r : PlatformResult) :
    handleInstallClick s r = .ok ⟨s, [], []⟩ := by
  simp [handleInstallClick, hh]

/-- Witness for C9 at the `Idle` state. -/
theorem click_without_handle_noop_witness :
    handleInstallClick .Idle .promptRejected = .ok ⟨.Idle, [], []⟩ :=
  click_without_handle_noop .Idle rfl .promptRejected

/-- Claim C10: `fetchGitHub` never rejects: for every endpoint and world
it resolves (`.ok`), and when the fetch fails or the response is not ok
it logs the failure and resolves with the empty array (regardless of the
caller's expected result type). -/
theorem fetchGitHub_never_rejects (endpoint : String) (w : FetchWorld) :
    ∃ r : FetchResult, fetchGitHub endpoint w = .ok r ∧
      ((w.netFails = true ∨ w.ok = false) →
        r.value = .arr [] ∧ ∃ e, ("GitHub Fetch Failed: " ++ e) ∈ r.logs) := by
  by_cases hn : w.netFails = true
  · refine ⟨⟨.arr [], ["GitHub Fetch Failed: " ++ w.netError]⟩, ?_, ?_⟩
    · simp [fetchGitHub, hn]
    · intro _; exact ⟨rfl, w.netError, by simp⟩
  · have hn' : w.netFails = false := by simpa using hn
    by_cases ho : w.ok = false
    · by_cases hd : w.devMode = true
      · refine ⟨⟨.arr [],
          ["GitHub API Error [" ++ toString w.status ++ "]: " ++ w.statusText ++ " → " ++
            ("https://api.github.com" ++ endpoint),
           "GitHub Fetch Failed: " ++ ("GitHub API request failed for " ++ endpoint)]⟩, ?_, ?_⟩
        · simp [fetchGitHub, hn', ho, hd]
        · intro _
          exact ⟨rfl, "GitHub API request failed for " ++ endpoint, by simp⟩
      · have hd' : w.devMode = false := by simpa using hd
        refine ⟨⟨.arr [],
          ["GitHub Fetch Failed: " ++ ("GitHub API request failed for " ++ endpoint)]⟩, ?_, ?_⟩
        · simp [fetchGitHub, hn', ho, hd']
        · intro _
          exact ⟨rfl, "GitHub API request failed for " ++ endpoint, by simp⟩
    · have ho' : w.ok = true := by simpa using ho
      cases hj : w.jsonResult with
      | ok v =>
          refine ⟨⟨v, []⟩, ?_, ?_⟩
          · simp [fetchGitHub, hn', ho', hj]
          · intro hcon
            rcases hcon with hc | hc
            · simp [hn'] at hc
            · simp [ho'] at hc
      | error e =>
          refine ⟨⟨.arr [], ["GitHub Fetch Failed: " ++ e]⟩, ?_, ?_⟩
          · simp [fetchGitHub, hn', ho', hj]
          · intro hcon
            rcases hcon with hc | hc
            · simp [hn'] at hc
            · simp [ho'] at hc

/-- Witness for C10 at a failing network world: the call resolves with
the empty array. -/
theorem fetchGitHub_never_rejects_witness :
    ∃ r : FetchResult,
      fetchGitHub "/repos/x" ⟨false, true, "network down", false, 500, "err", .ok (.num 0)⟩ =
        .ok r ∧ r.value = .arr [] := by
  obtain ⟨r, hr, himp⟩ := fetchGitHub_never_rejects "/repos/x"
    ⟨false, true, "network down", false, 500, "err", .ok (.num 0)⟩
  exact ⟨r, hr, (himp (Or.inl rfl)).1⟩
